import Mathlib

/-!
Verification of the Schedule Aggregation and Classification Engine
(src/update_schedule_data.py) against its natural-language specification.

The Python source is shallowly embedded below.  Pure functions become Lean
functions; the ambient state (current year, the date "yesterday" in the
configured timezone) is passed explicitly; Python exceptions are modelled by
Except values; Python dynamic typing at the one place where it matters (a
bare datetime.date versus a timezone-localized datetime flowing into the
same variable) is modelled by an explicit sum type.  The external metadata
provider is a function parameter, and the external ISO-8601 duration parser
is modelled from the spec.
-/

namespace Sched

/-- Decimal digit list of a natural number, most significant first, with
explicit fuel so that the definition is structural and evaluates by rfl.
Fuel n + 1 always suffices for input n. -/
def decDigitsF : Nat → Nat → List Char
  | 0, _ => []
  | fuel + 1, n =>
    if n < 10 then [Nat.digitChar n]
    else decDigitsF fuel (n / 10) ++ [Nat.digitChar (n % 10)]

/-- Decimal rendering of a natural number (the model of the decimal part of
the Python format specifier 02d). -/
def decRepr (n : Nat) : String := String.mk (decDigitsF (n + 1) n)

/-- Left-pad a string with zeros to a minimum width: the model of the Python
format specifier 0wd, which never truncates. -/
def padZeros (w : Nat) (s : String) : String :=
  String.mk (List.replicate (w - s.length) '0') ++ s

/-- Render with at least two digits, zero padded (Python 02d). -/
def pad2 (n : Nat) : String := padZeros 2 (decRepr n)

/-- Render with at least four digits, zero padded (Python 04d). -/
def pad4 (n : Nat) : String := padZeros 4 (decRepr n)

/-- Whether the first list is an initial segment of the second. -/
def isPre (p l : List Char) : Bool :=
  match p, l with
  | [], _ => true
  | _ :: _, [] => false
  | a :: ps, b :: ls => a == b && isPre ps ls

/-- Whether the needle occurs as a contiguous sublist. -/
def subOccurs (needle : List Char) : List Char → Bool
  | [] => isPre needle []
  | c :: rest => isPre needle (c :: rest) || subOccurs needle rest

/-- The Python in operator for substring containment. -/
def containsSub (needle s : String) : Bool := subOccurs needle.data s.data

/-- The Python str.split with an explicit single-character separator: no run
collapsing, and the empty string yields one empty part. -/
def splitOnChar (sep : Char) : List Char → List (List Char)
  | [] => [[]]
  | c :: rest =>
    let r := splitOnChar sep rest
    if c = sep then [] :: r
    else
      match r with
      | [] => [[c]]
      | h :: t => (c :: h) :: t

/-- The Python str.strip: drop whitespace from both ends. -/
def trimChars (l : List Char) : List Char :=
  ((l.dropWhile Char.isWhitespace).reverse.dropWhile Char.isWhitespace).reverse

/-- A nonempty all-digit character list read as a number. -/
def parseNatDigits (l : List Char) : Option Nat :=
  if l ≠ [] ∧ l.all Char.isDigit then
    some (l.foldl (fun a c => a * 10 + (c.toNat - 48)) 0)
  else none

/-- Model of the Python str.replace with the single-character pattern
newline and the replacement br tag: per-character substitution. -/
def py_replace_nl : List Char → List Char
  | [] => []
  | c :: rest =>
    if c = '\n' then '<' :: 'b' :: 'r' :: '>' :: py_replace_nl rest
    else c :: py_replace_nl rest

/-- sanitize_text from the source: replace newline characters with HTML
break tags; a falsy input (Python None or the empty string) yields None. -/
def sanitize_text (text : Option String) : Option String :=
  match text with
  | none => none
  | some s => if s = "" then none else some (String.mk (py_replace_nl s.data))

/-- format_duration from the source.  The Python divmod chain over
total_seconds is reproduced; the duration amount is a non-negative whole
number of seconds modelled as Nat, and the Python int truncation is Nat
division.  Days are folded into the hour component only when days is
nonzero, exactly as in the source. -/
def format_duration (totalSeconds : Nat) : String :=
  let days := totalSeconds / 86400
  let seconds0 := totalSeconds % 86400
  let hours0 := seconds0 / 3600
  let remainder := seconds0 % 3600
  let minutes := remainder / 60
  let seconds := remainder % 60
  let hours := if days ≠ 0 then hours0 + days * 24 else hours0
  pad2 hours ++ ":" ++ pad2 minutes ++ ":" ++ pad2 seconds

/-- Leading run of decimal digits of a character list, with its value and
the rest; fails when no digit leads. -/
def readDigits (l : List Char) : Option (Nat × List Char) :=
  let ds := l.takeWhile Char.isDigit
  if ds = [] then none
  else some (ds.foldl (fun a c => a * 10 + (c.toNat - 48)) 0, l.dropWhile Char.isDigit)

/-- One time component: a digit run followed by the given designator. -/
def stepComp (d : Char) (r : List Char) : Option (Nat × List Char) :=
  match readDigits r with
  | some (n, c :: rest) => if c = d then some (n, rest) else none
  | _ => none

/-- Time part of an ISO-8601 duration after the T: optional hour, minute and
second components in order, at least one present, nothing left over. -/
def parseTimePart (r : List Char) : Except String Nat :=
  let (h, any1, r1) :=
    match stepComp 'H' r with
    | some (n, rest) => (n, true, rest)
    | none => (0, false, r)
  let (m, any2, r2) :=
    match stepComp 'M' r1 with
    | some (n, rest) => (n, true, rest)
    | none => (0, false, r1)
  let (s, any3, r3) :=
    match stepComp 'S' r2 with
    | some (n, rest) => (n, true, rest)
    | none => (0, false, r2)
  if r3 = [] ∧ (any1 ∨ any2 ∨ any3) then Except.ok (h * 3600 + m * 60 + s)
  else Except.error "ISO8601Error: bad time part"

/-- Modelled from the spec: the source calls the external isodate
parse_duration function, which is not part of src; per the spec it parses a
standard machine-readable (ISO-8601) duration expression into a duration
amount and fails with a malformed-duration error on invalid input,
propagated rather than swallowed.  We model the P days T hours minutes
seconds fragment used by the engine, returning total seconds. -/
def parse_duration (s : String) : Except String Nat :=
  match s.data with
  | 'P' :: r0 =>
    let dayPart : Except String (Nat × Bool × List Char) :=
      match readDigits r0 with
      | some (n, 'D' :: r) => Except.ok (n, true, r)
      | some _ => Except.error ("ISO8601Error: Unable to parse duration string " ++ s)
      | none => Except.ok (0, false, r0)
    match dayPart with
    | Except.error e => Except.error e
    | Except.ok (days, hadD, r1) =>
      match r1 with
      | [] =>
        if hadD then Except.ok (days * 86400)
        else Except.error ("ISO8601Error: Unable to parse duration string " ++ s)
      | 'T' :: r2 =>
        match parseTimePart r2 with
        | Except.ok tsecs => Except.ok (days * 86400 + tsecs)
        | Except.error _ =>
          Except.error ("ISO8601Error: Unable to parse duration string " ++ s)
      | _ => Except.error ("ISO8601Error: Unable to parse duration string " ++ s)
  | _ => Except.error ("ISO8601Error: Unable to parse duration string " ++ s)

/-- The optional liveStreamingDetails block of a metadata item. -/
structure LiveStreamingDetails where
  scheduledStartTime : Option String := none
  actualStartTime : Option String := none
  actualEndTime : Option String := none
  deriving DecidableEq, Repr

/-- One metadata item returned by the external provider.  The snippet fields
liveBroadcastContent and the status field uploadStatus are accessed by the
source with mandatory indexing and are required by the provider schema; the
fields read through dict get chains are optional. -/
structure Item where
  id : String
  liveBroadcastContent : String
  uploadStatus : String
  liveStreamingDetails : Option LiveStreamingDetails := none
  duration : Option String := none
  title : Option String := none
  description : Option String := none
  channelTitle : Option String := none
  deriving DecidableEq, Repr

/-- The get chain item liveStreamingDetails scheduledStartTime. -/
def Item.scheduledStartTime (it : Item) : Option String :=
  it.liveStreamingDetails.bind LiveStreamingDetails.scheduledStartTime

/-- The get chain item liveStreamingDetails actualStartTime. -/
def Item.actualStartTime (it : Item) : Option String :=
  it.liveStreamingDetails.bind LiveStreamingDetails.actualStartTime

/-- The get chain item liveStreamingDetails actualEndTime. -/
def Item.actualEndTime (it : Item) : Option String :=
  it.liveStreamingDetails.bind LiveStreamingDetails.actualEndTime

/-- The live_content_state_mapping dict of the source. -/
def live_content_state_mapping : List (String × String) :=
  [("none", "on ended"), ("live", "on live"), ("upcoming", "on scheduled")]

/-- The stream_state computation of the source: dict get with default. -/
def derived_stream_state (live_content : String) : String :=
  (live_content_state_mapping.lookup live_content).getD "UNKNOWN"

/-- check_stream_state_type from the source.  The Python local stream_type
is assigned only on the branches that the source covers; returning it while
unassigned raises UnboundLocalError, modelled as the error case. -/
def check_stream_state_type (item : Item) : Except String (String × String) :=
  let stream_state := derived_stream_state item.liveBroadcastContent
  let stream_type : Option String :=
    if stream_state = "on ended" then
      some (if item.liveStreamingDetails.isSome then "video" else "live")
    else if item.uploadStatus = "processed" then some "video"
    else if item.uploadStatus = "uploaded" then some "live"
    else none
  match stream_type with
  | some t => Except.ok (stream_state, t)
  | none =>
    Except.error "UnboundLocalError: local variable stream_type referenced before assignment"

/-- A calendar date (the Python datetime.date produced by the dot-date call
on yesterday, carrying no time-of-day fields). -/
structure Date where
  year : Nat
  month : Nat
  day : Nat
  deriving DecidableEq, Repr

/-- A timezone-localized datetime (the pytz localize result); the timezone
tag itself is a run-wide constant and is left implicit, and the offset is
omitted from the isoformat rendering. -/
structure DateTime where
  year : Nat
  month : Nat
  day : Nat
  hour : Nat
  minute : Nat
  second : Nat
  deriving DecidableEq, Repr

/-- The running date context of process_data.  The Python variable
last_stream_date holds either the initial bare datetime.date (yesterday) or
a localized datetime from a date header; the two carry different methods,
which the model keeps apart. -/
inductive DateCtx where
  | bareDate (d : Date)
  | localized (dt : DateTime)
  deriving DecidableEq, Repr

/-- The Python int constructor on a string: optional surrounding whitespace
around a nonempty digit run (the sign and underscore forms never occur in
the scraped inputs); anything else raises ValueError. -/
def py_int (s : List Char) : Except String Nat :=
  match parseNatDigits (trimChars s) with
  | some n => Except.ok n
  | none => Except.error ("ValueError: invalid literal for int: " ++ String.mk s)

/-- localize_stream_date from the source: strip, take the token before the
first space, split it on the slash into exactly month and day, and build a
localized datetime in the current year (passed in for the ambient
datetime.now in the configured timezone). -/
def localize_stream_date (today_year : Nat) (stream_date : String) : Except String DateTime :=
  match splitOnChar '/' ((splitOnChar ' ' (trimChars stream_date.data)).headD []) with
  | [m, d] =>
    match py_int m, py_int d with
    | Except.ok month, Except.ok day =>
      Except.ok { year := today_year, month := month, day := day,
                  hour := 0, minute := 0, second := 0 }
    | Except.error e, _ => Except.error e
    | _, Except.error e => Except.error e
  | _ => Except.error "ValueError: not enough values to unpack"

/-- add_stream_time from the source: parse hour and minute from the stripped
time text, then call replace with hour and minute keywords on the running
date.  On a localized datetime this sets the two fields; on the bare
initial datetime.date the replace call has no such keywords and Python
raises TypeError, modelled as the error case. -/
def add_stream_time (date : DateCtx) (stream_time : String) : Except String DateTime :=
  match splitOnChar ':' (trimChars stream_time.data) with
  | [h, m] =>
    match py_int h, py_int m with
    | Except.ok hour, Except.ok minute =>
      match date with
      | DateCtx.localized dt => Except.ok { dt with hour := hour, minute := minute }
      | DateCtx.bareDate _ =>
        Except.error "TypeError: replace() got an unexpected keyword argument hour"
    | Except.error e, _ => Except.error e
    | _, Except.error e => Except.error e
  | _ => Except.error "ValueError: not enough values to unpack"

/-- isoformat rendering of a localized datetime (offset omitted). -/
def DateTime.isoformat (dt : DateTime) : String :=
  pad4 dt.year ++ "-" ++ pad2 dt.month ++ "-" ++ pad2 dt.day ++ "T" ++
  pad2 dt.hour ++ ":" ++ pad2 dt.minute ++ ":" ++ pad2 dt.second

/-- The stream sub-dict of a record. -/
structure StreamInfo where
  link : String
  thumbnail : String
  title : Option String := none
  description : Option String := none
  duration : Option String := none
  status : Option String := none
  type : Option String := none
  deriving DecidableEq, Repr

/-- The datetime sub-dict of a record.  scheduled_start is Option-typed to
mirror the Python dict value set (a string or None); the retention logic of
the merge pass, not the type, is what keeps it non-null. -/
structure DateTimes where
  scheduled_start : Option String
  actual_start : Option String := none
  actual_end : Option String := none
  deriving DecidableEq, Repr

/-- The channel sub-dict of a record. -/
structure ChannelInfo where
  short_name : String
  collabs : List String
  name : Option String := none
  deriving DecidableEq, Repr

/-- One schedule record, the value type of the aggregation mapping. -/
structure StreamRecord where
  stream : StreamInfo
  datetime : DateTimes
  channel : ChannelInfo
  deriving DecidableEq, Repr

/-- The aggregation mapping: an insertion-ordered dict whose keys are the
extracted identifiers, including the possible Python None key. -/
abbrev Records := List (Option String × StreamRecord)

/-- Python dict assignment: replace in place when the key is present,
append otherwise. -/
def upsert (k : Option String) (v : StreamRecord) : Records → Records
  | [] => [(k, v)]
  | (k0, v0) :: rest => if k0 = k then (k, v) :: rest else (k0, v0) :: upsert k v rest

/-- One scraped fragment, at the boundary the spec gives for the scrape
source: link, time text, channel short name, primary thumbnail, and the
remaining image sources as collaborator thumbnails. -/
structure ScheduleFragment where
  link : String
  time_text : String
  short_name : String
  thumbnail : String
  collabs : List String
  deriving DecidableEq, Repr

/-- One container of the scraped page: an optional date header text and the
fragments below it. -/
structure FragmentGroup where
  header : Option String
  fragments : List ScheduleFragment
  deriving DecidableEq, Repr

/-- The character class of the is_youtube_id regex: ASCII letters, digits,
underscore, hyphen. -/
def idChar (c : Char) : Bool := c.isAlphanum || c == '_' || c == '-'

/-- The anchored Python regex match of one-or-more id characters followed by
end of string, where the dollar anchor also matches just before one trailing
newline at the end of the input. -/
def matchesIdAnchor (s : String) : Bool :=
  let cs := s.data
  let body := if cs.getLast? = some '\n' then cs.dropLast else cs
  body != [] && body.all idChar

/-- is_youtube_id from the source: a string of length 11 matching the
anchored id-character regex (the isinstance check is subsumed by typing). -/
def is_youtube_id (video_id : String) : Bool :=
  video_id.length == 11 && matchesIdAnchor video_id

/-- Regular expression syntax for the identifier-extraction pattern: single
characters and classes, sequencing, ordered alternation, greedy option,
greedy star over a character class, an exact repetition of a class, and the
single capturing group. -/
inductive RE where
  | eps
  | lit (c : Char)
  | cls (p : Char → Bool)
  | seq (a b : RE)
  | alt (a b : RE)
  | opt (a : RE)
  | starCls (p : Char → Bool)
  | repCls (p : Char → Bool) (n : Nat)
  | grp (a : RE)

/-- A match result: none for failure, otherwise the capture of group one. -/
abbrev MatchRes := Option (Option (List Char))

/-- First-success choice over match results (the backtracking order of the
Python engine: the left branch is preferred). -/
def orR (a b : MatchRes) : MatchRes :=
  match a with
  | some r => some r
  | none => b

/-- Match a single character against a class or literal predicate. -/
def matChar (p : Char → Bool) (s : List Char) (cap : Option (List Char))
    (k : List Char → Option (List Char) → MatchRes) : MatchRes :=
  match s with
  | [] => none
  | c :: rest => if p c then k rest cap else none

/-- Greedy star search over a character class: try the longest permitted
consumption first and give back one character at a time, exactly the
backtracking order of the Python engine. -/
def starSearch (k : List Char → MatchRes) (s : List Char) : Nat → MatchRes
  | 0 => k s
  | m + 1 => orR (k (s.drop (m + 1))) (starSearch k s m)

/-- Exact repetition of a character class. -/
def repMatch (p : Char → Bool) :
    Nat → List Char → Option (List Char) → (List Char → Option (List Char) → MatchRes) → MatchRes
  | 0, s, cap, k => k s cap
  | n + 1, s, cap, k => matChar p s cap fun s1 c1 => repMatch p n s1 c1 k

/-- Backtracking matcher in continuation style.  The continuation receives
the remaining input and the current capture of group one; the group records
the characters it consumed. -/
def reMatch : RE → List Char → Option (List Char) →
    (List Char → Option (List Char) → MatchRes) → MatchRes
  | RE.eps, s, cap, k => k s cap
  | RE.lit c, s, cap, k => matChar (fun x => x == c) s cap k
  | RE.cls p, s, cap, k => matChar p s cap k
  | RE.seq a b, s, cap, k => reMatch a s cap fun s1 c1 => reMatch b s1 c1 k
  | RE.alt a b, s, cap, k => orR (reMatch a s cap k) (reMatch b s cap k)
  | RE.opt a, s, cap, k => orR (reMatch a s cap k) (k s cap)
  | RE.starCls p, s, cap, k => starSearch (fun s1 => k s1 cap) s (s.takeWhile p).length
  | RE.repCls p n, s, cap, k => repMatch p n s cap k
  | RE.grp a, s, cap, k =>
    reMatch a s cap fun s1 _ => k s1 (some (s.take (s.length - s1.length)))

/-- The top continuation of a search: the whole pattern has been matched,
report the group capture. -/
def kTop : List Char → Option (List Char) → MatchRes := fun _ cap => some cap

/-- The re.search scan: try a full match at each start position from the
left, returning the first success. -/
def reSearch (r : RE) : List Char → MatchRes
  | [] => reMatch r [] none kTop
  | c :: rest =>
    match reMatch r (c :: rest) none kTop with
    | some cap => some cap
    | none => reSearch r rest

/-- A sequence of literal characters. -/
def strRE (s : String) : RE := s.data.foldr (fun c r => RE.seq (RE.lit c) r) RE.eps

/-- The regex dot without DOTALL: any character but newline. -/
def dotP (c : Char) : Bool := c != '\n'

/-- The class excluding the slash. -/
def notSlash (c : Char) : Bool := c != '/'

/-- The class excluding the ampersand (the capture class of the pattern). -/
def notAmp (c : Char) : Bool := c != '&'

/-- The class of a question mark or ampersand. -/
def qAmp (c : Char) : Bool := c == '?' || c == '&'

/-- First alternative after the youtube host: one-or-more non-slashes, a
slash, then dot-star. -/
def altA : RE :=
  RE.seq (RE.cls notSlash) (RE.seq (RE.starCls notSlash) (RE.seq (RE.lit '/') (RE.starCls dotP)))

/-- Second alternative after the youtube host: v, or e followed by an
optional mbed, or the literal watch query prefix. -/
def altB : RE :=
  RE.alt (RE.lit 'v') (RE.alt (RE.seq (RE.lit 'e') (RE.opt (strRE "mbed"))) (strRE "watch?v="))

/-- Third alternative after the youtube host: dot-star, then a question mark
or ampersand, then the v= marker. -/
def altC : RE :=
  RE.seq (RE.starCls dotP) (RE.seq (RE.cls qAmp) (RE.seq (RE.lit 'v') (RE.lit '=')))

/-- The host alternation: the youtube host followed by the inner
alternation, or the short youtu.be host. -/
def hostRE : RE :=
  RE.alt (RE.seq (strRE "youtube.com/") (RE.alt altA (RE.alt altB altC))) (strRE "youtu.be/")

/-- The optional scheme: http, an optional s, the separator. -/
def schemeRE : RE := RE.seq (strRE "http") (RE.seq (RE.opt (RE.lit 's')) (strRE "://"))

/-- The full extraction pattern of the source, transcribed
constructor-by-constructor from the regex: an optional scheme, an optional
www dot, the host alternation, and the capturing group of exactly eleven
characters other than the ampersand. -/
def idPattern : RE :=
  RE.seq (RE.opt schemeRE)
    (RE.seq (RE.opt (strRE "www."))
      (RE.seq hostRE (RE.grp (RE.repCls notAmp 11))))

/-- The continuation standing after the host alternation: the capturing
group of eleven non-ampersand characters, then the top continuation. -/
def kSeq3 : List Char → Option (List Char) → MatchRes :=
  fun s1 c1 => reMatch (RE.grp (RE.repCls notAmp 11)) s1 c1 kTop

/-- The tail of the third alternative after its dot-star: a question mark or
ampersand, the v, the equals sign. -/
def altCtail : RE := RE.seq (RE.cls qAmp) (RE.seq (RE.lit 'v') (RE.lit '='))

/-- A capture is good when it is eleven characters long and free of
ampersands (what the capturing group of the pattern can record). -/
def GoodCap (cap : Option (List Char)) : Prop :=
  ∀ l, cap = some l → l.length = 11 ∧ ∀ c ∈ l, c ≠ '&'

/-- A match result is good when any reported capture is good. -/
def GoodRes (res : MatchRes) : Prop := ∀ v, res = some v → GoodCap v

/-- Syntactic patterns whose only capturing groups are eleven-fold
repetitions of ampersand-free classes; the identifier pattern is one. -/
inductive CapSafe : RE → Prop
  | eps : CapSafe RE.eps
  | lit (c : Char) : CapSafe (RE.lit c)
  | cls (p : Char → Bool) : CapSafe (RE.cls p)
  | seq {a b : RE} : CapSafe a → CapSafe b → CapSafe (RE.seq a b)
  | alt {a b : RE} : CapSafe a → CapSafe b → CapSafe (RE.alt a b)
  | opt {a : RE} : CapSafe a → CapSafe (RE.opt a)
  | starCls (p : Char → Bool) : CapSafe (RE.starCls p)
  | repCls (p : Char → Bool) (n : Nat) : CapSafe (RE.repCls p n)
  | grp (p : Char → Bool) : (∀ c, p c = true → c ≠ '&') → CapSafe (RE.grp (RE.repCls p 11))

/-- extract_id from the source: the secondary-family branch keys on the
substring abema anywhere in the link and returns the final path segment;
otherwise the pattern is searched in the link and the capture of group one
is returned, or none when the search fails. -/
def extract_id (url : String) : Option String :=
  if containsSub "abema" url then
    some (String.mk ((splitOnChar '/' url.data).getLastD []))
  else
    match reSearch idPattern url.data with
    | some (some cap) => some (String.mk cap)
    | some none => none
    | none => none

/-- The chunking loop of fetch_youtube_data: slices of fifty identifiers
taken in order, with fuel equal to the list length so the recursion is
structural and evaluates by rfl. -/
def chunkF : Nat → List String → List (List String)
  | _, [] => []
  | 0, _ :: _ => []
  | fuel + 1, x :: rest => ((x :: rest).take 50) :: chunkF fuel ((x :: rest).drop 50)

/-- The batches video_ids sliced fifty at a time, in order. -/
def chunk50 (ids : List String) : List (List String) := chunkF ids.length ids

/-- fetch_youtube_data from the source, with the external provider call (the
client build plus videos list execute plus the items get) passed in as a
function.  Each batch call sits in its own try block: a failing call is
logged and skipped, the items of the successful calls are collected in
order, and no exception escapes. -/
def fetch_youtube_data (provider : List String → Except String (List Item))
    (video_ids : List String) : List Item :=
  (chunk50 video_ids).foldl
    (fun items chunk =>
      match provider chunk with
      | Except.ok resp => items ++ resp
      | Except.error _ => items)
    []

/-- The record built for one fragment in the scrape pass of process_data. -/
def scraped_record (f : ScheduleFragment) (dt : DateTime) : StreamRecord :=
  { stream := { link := f.link, thumbnail := f.thumbnail },
    datetime := { scheduled_start := some dt.isoformat },
    channel := { short_name := f.short_name, collabs := f.collabs } }

/-- The inner fragment loop of the scrape pass: extract the identifier
(possibly none), compute the scheduled start from the running date context,
and assign into the mapping under the extracted key, none included. -/
def build_fragments (ctx : DateCtx) (data : Records) :
    List ScheduleFragment → Except String Records
  | [] => Except.ok data
  | f :: rest => do
    let stream_id := extract_id f.link
    let dt ← add_stream_time ctx f.time_text
    build_fragments ctx (upsert stream_id (scraped_record f dt) data) rest

/-- The container loop of the scrape pass: a date header, when present,
replaces the running date context; the fragments below are then processed
with the current context. -/
def build_groups (today_year : Nat) (ctx : DateCtx) (data : Records) :
    List FragmentGroup → Except String Records
  | [] => Except.ok data
  | g :: rest => do
    let ctx1 ←
      match g.header with
      | some h => (localize_stream_date today_year h).map DateCtx.localized
      | none => Except.ok ctx
    let data1 ← build_fragments ctx1 data g.fragments
    build_groups today_year ctx1 data1 rest

/-- The scrape pass of process_data: the running context starts as the bare
date yesterday (the ambient now in the configured timezone minus one day,
passed in explicitly), the mapping starts empty. -/
def build_records (today_year : Nat) (yesterday : Date)
    (groups : List FragmentGroup) : Except String Records :=
  build_groups today_year (DateCtx.bareDate yesterday) [] groups

/-- The duration handling of the merge pass: absent stays absent, present is
parsed (an exception propagating) and formatted. -/
def merge_duration (item : Item) : Except String (Option String) :=
  match item.duration with
  | none => Except.ok none
  | some d => (parse_duration d).map fun n => some (format_duration n)

/-- The record update of the merge pass: the stream sub-dict gains title,
sanitized description, formatted duration, status and type; the datetime
sub-dict keeps the scraped scheduled start when the provider value is null
and takes the provider value otherwise, and gains the actual start and end;
the channel sub-dict gains the provider channel title. -/
def merged_record (rec : StreamRecord) (item : Item) (stream_status stream_type : String)
    (duration : Option String) : StreamRecord :=
  { stream := { rec.stream with
      title := item.title
      description := sanitize_text item.description
      duration := duration
      status := some stream_status
      type := some stream_type }
    datetime :=
      { scheduled_start :=
          match item.scheduledStartTime with
          | none => rec.datetime.scheduled_start
          | some s => some s
        actual_start := item.actualStartTime
        actual_end := item.actualEndTime }
    channel := { rec.channel with name := item.channelTitle } }

/-- One iteration of the merge loop of process_data: an item whose id is not
a key of the mapping is skipped; otherwise the item is classified, its
duration parsed and formatted, and the record updated in place.  Any
exception escapes this iteration. -/
def merge_item (data : Records) (item : Item) : Except String Records :=
  match data.lookup (some item.id) with
  | none => Except.ok data
  | some rec => do
    let st ← check_stream_state_type item
    let duration ← merge_duration item
    Except.ok (upsert (some item.id) (merged_record rec item st.1 st.2 duration) data)

/-- The merge loop of process_data: a Python for loop with no try block, so
an exception raised for one item aborts the processing of the remaining
items and propagates out of process_data. -/
def merge_items (data : Records) : List Item → Except String Records
  | [] => Except.ok data
  | item :: rest => do
    let data1 ← merge_item data item
    merge_items data1 rest

/-- process_data from the source, over the boundary shape the spec gives for
the scrape source: the scrape pass builds the mapping, the keys passing
is_youtube_id are fetched in batches from the provider, and the returned
items are merged. -/
def process_data (today_year : Nat) (yesterday : Date)
    (groups : List FragmentGroup)
    (provider : List String → Except String (List Item)) : Except String Records := do
  let data ← build_records today_year yesterday groups
  let youtube_video_ids := (data.map Prod.fst).filterMap fun k =>
    match k with
    | some v => if is_youtube_id v then some v else none
    | none => none
  let youtube_items := fetch_youtube_data provider youtube_video_ids
  merge_items data youtube_items

/-- One hundred twenty distinct eligible identifiers, for the three-batch
scenario of the spec. -/
def idsC9 : List String := (List.range 120).map fun n => "aaaaaaaa" ++ padZeros 3 (decRepr n)

/-- A minimal provider item for an identifier. -/
def mkItemC9 (v : String) : Item :=
  { id := v, liveBroadcastContent := "none", uploadStatus := "processed",
    liveStreamingDetails := some {} }

/-- A provider failing exactly on the batch holding identifier number fifty
(the second of the three batches) and answering the other batches. -/
def providerC9 (c : List String) : Except String (List Item) :=
  if c.contains "aaaaaaaa050" then Except.error "MetadataBatchError"
  else Except.ok (c.map mkItemC9)

/-- A fragment whose link matches no known URL shape. -/
def fragC1a : ScheduleFragment :=
  { link := "https://example.com/a", time_text := "09:00", short_name := "chA",
    thumbnail := "tA", collabs := [] }

/-- A second fragment whose link matches no known URL shape. -/
def fragC1b : ScheduleFragment :=
  { link := "https://example.com/b", time_text := "10:30", short_name := "chB",
    thumbnail := "tB", collabs := ["c1"] }

/-- A fragment with a resolvable short-URL link, nine in the morning. -/
def fragC7a : ScheduleFragment :=
  { link := "https://youtu.be/AAAAAAAAAAA", time_text := "09:00", short_name := "ch1",
    thumbnail := "t1", collabs := [] }

/-- A second resolvable fragment, half past ten. -/
def fragC7b : ScheduleFragment :=
  { link := "https://youtu.be/BBBBBBBBBBB", time_text := "10:30", short_name := "ch2",
    thumbnail := "t2", collabs := [] }

/-- A third resolvable fragment, eleven, in a headerless later group. -/
def fragC7c : ScheduleFragment :=
  { link := "https://youtu.be/CCCCCCCCCCC", time_text := "11:00", short_name := "ch3",
    thumbnail := "t3", collabs := [] }

/-- A scraped record for the merge-abort scenario. -/
def recC3a : StreamRecord :=
  { stream := { link := "lA", thumbnail := "tA" },
    datetime := { scheduled_start := some "sA" },
    channel := { short_name := "a", collabs := [] } }

/-- A second scraped record for the merge-abort scenario. -/
def recC3b : StreamRecord :=
  { stream := { link := "lB", thumbnail := "tB" },
    datetime := { scheduled_start := some "sB" },
    channel := { short_name := "b", collabs := [] } }

/-- A two-record mapping for the merge-abort scenario. -/
def dataC3 : Records := [(some "AAAAAAAAAAA", recC3a), (some "BBBBBBBBBBB", recC3b)]

/-- An item carrying a malformed duration string. -/
def itemC3bad : Item :=
  { id := "AAAAAAAAAAA", liveBroadcastContent := "none", uploadStatus := "processed",
    liveStreamingDetails := some {}, duration := some "banana" }

/-- A well-formed item matching the second record. -/
def itemC3good : Item :=
  { id := "BBBBBBBBBBB", liveBroadcastContent := "live", uploadStatus := "uploaded" }

/-- An item whose status is live and whose upload status is neither
processed nor uploaded. -/
def itemC2 : Item :=
  { id := "x", liveBroadcastContent := "live", uploadStatus := "failed" }

/-- An ended item with timing sub-data present (spec classification row). -/
def itemC4a : Item :=
  { id := "a", liveBroadcastContent := "none", uploadStatus := "processed",
    liveStreamingDetails := some {} }

/-- An upcoming uploaded item (spec classification row). -/
def itemC4b : Item :=
  { id := "b", liveBroadcastContent := "upcoming", uploadStatus := "uploaded" }

/-- A live processed item (spec classification row). -/
def itemC4c : Item :=
  { id := "c", liveBroadcastContent := "live", uploadStatus := "processed" }

/-- A record holding a scraped scheduled start (spec merge example). -/
def recC8 : StreamRecord :=
  { stream := { link := "l", thumbnail := "t" },
    datetime := { scheduled_start := some "2024-06-01T09:00:00+00:00" },
    channel := { short_name := "s", collabs := [] } }

/-- An item whose timing block carries a null scheduled start. -/
def itemC8 : Item :=
  { id := "MMMMMMMMMMM", liveBroadcastContent := "upcoming", uploadStatus := "uploaded",
    liveStreamingDetails := some { scheduledStartTime := none } }

/-- A record for small witness instantiations. -/
def recW : StreamRecord :=
  { stream := { link := "lw", thumbnail := "tw" },
    datetime := { scheduled_start := some "sw" },
    channel := { short_name := "w", collabs := [] } }

theorem decDigitsF_len_pos (fuel n : Nat) (h : 0 < fuel) : 0 < (decDigitsF fuel n).length := by
  match fuel, h with
  | f + 1, _ =>
    unfold decDigitsF
    split
    · simp
    · simp

theorem decDigitsF_len_le1 (fuel n : Nat) (h : n < 10) : (decDigitsF fuel n).length ≤ 1 := by
  match fuel with
  | 0 => simp [decDigitsF]
  | f + 1 => simp [decDigitsF, if_pos h]

theorem decDigitsF_len_le2 (fuel n : Nat) (h : n < 100) : (decDigitsF fuel n).length ≤ 2 := by
  match fuel with
  | 0 => simp [decDigitsF]
  | f + 1 =>
    unfold decDigitsF
    split
    · simp
    · have h10 : n / 10 < 10 := by omega
      simp only [List.length_append, List.length_singleton]
      have := decDigitsF_len_le1 f (n / 10) h10
      omega

theorem decDigitsF_len_ge2 (fuel n : Nat) (hf : 2 ≤ fuel) (h : 10 ≤ n) :
    2 ≤ (decDigitsF fuel n).length := by
  match fuel, hf with
  | f + 1, _ =>
    unfold decDigitsF
    rw [if_neg (by omega)]
    simp only [List.length_append, List.length_singleton]
    have := decDigitsF_len_pos f (n / 10) (by omega)
    omega

theorem decDigitsF_len_ge3 (fuel n : Nat) (hf : 3 ≤ fuel) (h : 100 ≤ n) :
    3 ≤ (decDigitsF fuel n).length := by
  match fuel, hf with
  | f + 1, _ =>
    unfold decDigitsF
    rw [if_neg (by omega)]
    simp only [List.length_append, List.length_singleton]
    have h10 : 10 ≤ n / 10 := by omega
    have := decDigitsF_len_ge2 f (n / 10) (by omega) h10
    omega

theorem decRepr_length (n : Nat) : (decRepr n).length = (decDigitsF (n + 1) n).length := rfl

theorem padZeros_length (w : Nat) (s : String) :
    (padZeros w s).length = (w - s.length) + s.length := by
  rw [padZeros, String.length_append, String.length_mk, List.length_replicate]

theorem pad2_length_ge (n : Nat) : 2 ≤ (pad2 n).length := by
  rw [pad2, padZeros_length]
  omega

theorem pad2_length_eq (n : Nat) (h : n < 100) : (pad2 n).length = 2 := by
  rw [pad2, padZeros_length, decRepr_length]
  have := decDigitsF_len_le2 (n + 1) n h
  omega

theorem pad2_length_ge3 (n : Nat) (h : 100 ≤ n) : 3 ≤ (pad2 n).length := by
  rw [pad2, padZeros_length, decRepr_length]
  have := decDigitsF_len_ge3 (n + 1) n (by omega) h
  omega

theorem format_duration_eq (d : Nat) :
    format_duration d =
      pad2 (d / 3600) ++ ":" ++ pad2 (d % 3600 / 60) ++ ":" ++ pad2 (d % 60) := by
  unfold format_duration
  simp only []
  have h1 : (if d / 86400 ≠ 0 then d % 86400 / 3600 + d / 86400 * 24 else d % 86400 / 3600)
      = d / 3600 := by
    split <;> omega
  have h2 : d % 86400 % 3600 / 60 = d % 3600 / 60 := by omega
  have h3 : d % 86400 % 3600 % 60 = d % 60 := by omega
  rw [h1, h2, h3]

/-- C5: format_duration folds whole days into the hour component, renders
the hour field with at least two digits and no upper truncation (three or
more digits from one hundred hours up), renders minutes and seconds as
exactly two zero-padded digits, and the two spec round-trip examples hold. -/
theorem claim_C5 :
    (∀ d : Nat,
      format_duration d =
        pad2 (d / 3600) ++ ":" ++ pad2 (d % 3600 / 60) ++ ":" ++ pad2 (d % 60) ∧
      2 ≤ (pad2 (d / 3600)).length ∧
      (360000 ≤ d → 3 ≤ (pad2 (d / 3600)).length) ∧
      (pad2 (d % 3600 / 60)).length = 2 ∧
      (pad2 (d % 60)).length = 2) ∧
    parse_duration "PT1H5M3S" = Except.ok 3903 ∧
    format_duration 3903 = "01:05:03" ∧
    parse_duration "P1DT2H" = Except.ok 93600 ∧
    format_duration 93600 = "26:00:00" := by
  refine ⟨fun d => ⟨format_duration_eq d, pad2_length_ge _, fun h => ?_, ?_, ?_⟩,
    rfl, rfl, rfl, rfl⟩
  · exact pad2_length_ge3 _ (by omega)
  · exact pad2_length_eq _ (by omega)
  · exact pad2_length_eq _ (by omega)

theorem claim_C5_witness : 3 ≤ (pad2 (360000 / 3600)).length :=
  (claim_C5.1 360000).2.2.1 (by omega)

theorem except_bind_ok {ε α β : Type} (a : α) (f : α → Except ε β) :
    (Except.ok a >>= f : Except ε β) = f a := rfl

theorem except_bind_error {ε α β : Type} (e : ε) (f : α → Except ε β) :
    ((Except.error e : Except ε α) >>= f : Except ε β) = Except.error e := rfl

theorem except_bind_eq {ε α β : Type} (x : Except ε α) (f : α → Except ε β) :
    (x >>= f : Except ε β) = Except.bind x f := rfl

theorem derived_of_other (flag : String) (h1 : flag ≠ "none") (h2 : flag ≠ "live")
    (h3 : flag ≠ "upcoming") : derived_stream_state flag = "UNKNOWN" := by
  have e1 : (flag == "none") = false := beq_eq_false_iff_ne.mpr h1
  have e2 : (flag == "live") = false := beq_eq_false_iff_ne.mpr h2
  have e3 : (flag == "upcoming") = false := beq_eq_false_iff_ne.mpr h3
  simp [derived_stream_state, live_content_state_mapping, List.lookup, e1, e2, e3]

theorem derived_ne_ended (flag : String) (h : flag ≠ "none") :
    derived_stream_state flag ≠ "on ended" := by
  by_cases h2 : flag = "live"
  · subst h2; decide
  by_cases h3 : flag = "upcoming"
  · subst h3; decide
  rw [derived_of_other flag h h2 h3]
  decide

theorem check_of_ended (item : Item) (h : item.liveBroadcastContent = "none") :
    check_stream_state_type item =
      Except.ok ("on ended", if item.liveStreamingDetails.isSome then "video" else "live") := by
  have hd : derived_stream_state item.liveBroadcastContent = "on ended" := by
    rw [h]; decide
  simp [check_stream_state_type, hd]

theorem check_of_processed (item : Item) (h : item.liveBroadcastContent ≠ "none")
    (hu : item.uploadStatus = "processed") :
    check_stream_state_type item =
      Except.ok (derived_stream_state item.liveBroadcastContent, "video") := by
  simp [check_stream_state_type, derived_ne_ended _ h, hu]

theorem check_of_uploaded (item : Item) (h : item.liveBroadcastContent ≠ "none")
    (hu : item.uploadStatus = "uploaded") :
    check_stream_state_type item =
      Except.ok (derived_stream_state item.liveBroadcastContent, "live") := by
  by_cases hp : item.uploadStatus = "processed"
  · rw [hp] at hu; exact absurd hu (by decide)
  simp [check_stream_state_type, derived_ne_ended _ h, hp, hu]

/-- C2 counterexample: for a live item whose upload status is neither
processed nor uploaded, the classifier does not return a pair with the type
left unset; it raises the Python unbound-local error. -/
theorem claim_C2_counterexample :
    check_stream_state_type itemC2 =
      Except.error
        "UnboundLocalError: local variable stream_type referenced before assignment" := rfl

/-- C2 (amended): the classifier returns a pair without raising whenever the
derived status is ended or the upload status is processed or uploaded; when
the derived status is live, scheduled or unknown and the upload status is
neither processed nor uploaded, it raises an unbound-local error instead of
returning with the type unset. -/
theorem claim_C2 (item : Item) :
    ((derived_stream_state item.liveBroadcastContent = "on ended" ∨
        item.uploadStatus = "processed" ∨ item.uploadStatus = "uploaded") →
      ∃ st, check_stream_state_type item = Except.ok st) ∧
    (derived_stream_state item.liveBroadcastContent ≠ "on ended" →
      item.uploadStatus ≠ "processed" → item.uploadStatus ≠ "uploaded" →
      check_stream_state_type item =
        Except.error
          "UnboundLocalError: local variable stream_type referenced before assignment") := by
  constructor
  · intro h
    by_cases he : derived_stream_state item.liveBroadcastContent = "on ended"
    · exact ⟨("on ended", if item.liveStreamingDetails.isSome then "video" else "live"),
        by simp [check_stream_state_type, he]⟩
    by_cases hp : item.uploadStatus = "processed"
    · exact ⟨(derived_stream_state item.liveBroadcastContent, "video"),
        by simp [check_stream_state_type, he, hp]⟩
    by_cases hu : item.uploadStatus = "uploaded"
    · exact ⟨(derived_stream_state item.liveBroadcastContent, "live"),
        by simp [check_stream_state_type, he, hp, hu]⟩
    · rcases h with h | h | h <;> contradiction
  · intro he hp hu
    simp [check_stream_state_type, he, hp, hu]

theorem claim_C2_witness :
    (∃ st, check_stream_state_type itemC4b = Except.ok st) ∧
    check_stream_state_type itemC2 =
      Except.error
        "UnboundLocalError: local variable stream_type referenced before assignment" :=
  ⟨(claim_C2 itemC4b).1 (Or.inr (Or.inr rfl)),
    (claim_C2 itemC2).2 (by decide) (by decide) (by decide)⟩

/-- C4: the lifecycle flag maps through the fixed table (none to ended, live
to live, upcoming to scheduled, anything else to unknown); an ended item
takes type video exactly when the timing sub-data block is present and live
when absent; a non-ended item takes type video when the upload status is
processed and live when it is uploaded. -/
theorem claim_C4 :
    (∀ flag : String,
      derived_stream_state "none" = "on ended" ∧
      derived_stream_state "live" = "on live" ∧
      derived_stream_state "upcoming" = "on scheduled" ∧
      (flag ≠ "none" → flag ≠ "live" → flag ≠ "upcoming" →
        derived_stream_state flag = "UNKNOWN")) ∧
    ∀ item : Item,
      (item.liveBroadcastContent = "none" →
        check_stream_state_type item =
          Except.ok ("on ended", if item.liveStreamingDetails.isSome then "video" else "live")) ∧
      (item.liveBroadcastContent ≠ "none" → item.uploadStatus = "processed" →
        check_stream_state_type item =
          Except.ok (derived_stream_state item.liveBroadcastContent, "video")) ∧
      (item.liveBroadcastContent ≠ "none" → item.uploadStatus = "uploaded" →
        check_stream_state_type item =
          Except.ok (derived_stream_state item.liveBroadcastContent, "live")) :=
  ⟨fun flag => ⟨rfl, rfl, rfl, derived_of_other flag⟩,
    fun item => ⟨check_of_ended item, check_of_processed item, check_of_uploaded item⟩⟩

theorem claim_C4_witness :
    check_stream_state_type itemC4a = Except.ok ("on ended", "video") ∧
    check_stream_state_type itemC4b = Except.ok ("on scheduled", "live") ∧
    check_stream_state_type itemC4c = Except.ok ("on live", "video") ∧
    derived_stream_state "deleted" = "UNKNOWN" :=
  ⟨(claim_C4.2 itemC4a).1 rfl,
    (claim_C4.2 itemC4b).2.2 (by decide) rfl,
    (claim_C4.2 itemC4c).2.1 (by decide) rfl,
    (claim_C4.1 "deleted").2.2.2 (by decide) (by decide) (by decide)⟩

/-- C1: contrary to the claim, the scrape pass does not drop fragments whose
link yields no identifier.  Both example links extract to none, yet the
build pass creates a record under the none key, and the second such
fragment silently overwrites the first: the resulting mapping is exactly
the one null-keyed record of the second fragment. -/
theorem claim_C1 :
    extract_id fragC1a.link = none ∧
    extract_id fragC1b.link = none ∧
    build_records 2024 ⟨2024, 5, 31⟩ [⟨some "6/1", [fragC1a, fragC1b]⟩] =
      Except.ok [(none, scraped_record fragC1b ⟨2024, 6, 1, 10, 30, 0⟩)] :=
  ⟨by decide, by decide, by rfl⟩

/-- C7: the date header replaces the running context and a headerless group
reuses it (first three conjuncts, the three loop equations; fourth conjunct,
the concrete spec example with starts at nine and half past ten on the
first of June and eleven carried forward), but contrary to the claim, when
no header precedes the first fragment group the scrape pass does not
produce scheduled starts from the yesterday context: the bare date raises
the Python TypeError inside the replace call and the build aborts. -/
theorem claim_C7 :
    (∀ (today : Nat) (ctx : DateCtx) (data : Records) (g : FragmentGroup)
        (rest : List FragmentGroup), g.header = none →
      build_groups today ctx data (g :: rest) =
        (build_fragments ctx data g.fragments).bind fun d1 =>
          build_groups today ctx d1 rest) ∧
    (∀ (today : Nat) (ctx : DateCtx) (data : Records) (g : FragmentGroup)
        (rest : List FragmentGroup) (h : String), g.header = some h →
      build_groups today ctx data (g :: rest) =
        (localize_stream_date today h).bind fun dt =>
          (build_fragments (DateCtx.localized dt) data g.fragments).bind fun d1 =>
            build_groups today (DateCtx.localized dt) d1 rest) ∧
    (∀ (ctx : DateCtx) (data : Records) (f : ScheduleFragment)
        (rest : List ScheduleFragment),
      build_fragments ctx data (f :: rest) =
        (add_stream_time ctx f.time_text).bind fun dt =>
          build_fragments ctx (upsert (extract_id f.link) (scraped_record f dt) data) rest) ∧
    build_records 2024 ⟨2024, 5, 31⟩ [⟨some "6/1", [fragC7a, fragC7b]⟩, ⟨none, [fragC7c]⟩] =
      Except.ok
        [(some "AAAAAAAAAAA", scraped_record fragC7a ⟨2024, 6, 1, 9, 0, 0⟩),
         (some "BBBBBBBBBBB", scraped_record fragC7b ⟨2024, 6, 1, 10, 30, 0⟩),
         (some "CCCCCCCCCCC", scraped_record fragC7c ⟨2024, 6, 1, 11, 0, 0⟩)] ∧
    build_records 2024 ⟨2024, 5, 31⟩ [⟨none, [fragC7a]⟩] =
      Except.error "TypeError: replace() got an unexpected keyword argument hour" := by
  refine ⟨?_, ?_, fun ctx data f rest => rfl, by rfl, by rfl⟩
  · intro today ctx data g rest h
    obtain ⟨hdr, frs⟩ := g
    cases hdr with
    | none => rfl
    | some x => exact absurd h (by simp)
  · intro today ctx data g rest h hh
    obtain ⟨hdr, frs⟩ := g
    cases hdr with
    | none => exact absurd hh (by simp)
    | some x =>
      simp only [FragmentGroup.header] at hh
      cases hh
      cases hloc : localize_stream_date today h with
      | error e =>
        simp [build_groups, hloc, Except.map, except_bind_eq, Except.bind]
      | ok dt =>
        simp [build_groups, hloc, Except.map, except_bind_eq, Except.bind]

theorem claim_C7_witness :
    build_groups 2024 (DateCtx.localized ⟨2024, 6, 1, 0, 0, 0⟩) [] [⟨none, []⟩] =
      (build_fragments (DateCtx.localized ⟨2024, 6, 1, 0, 0, 0⟩) [] []).bind fun d1 =>
        build_groups 2024 (DateCtx.localized ⟨2024, 6, 1, 0, 0, 0⟩) d1 [] :=
  claim_C7.1 2024 (DateCtx.localized ⟨2024, 6, 1, 0, 0, 0⟩) [] ⟨none, []⟩ [] rfl

/-- C3 counterexample: with two records scraped and two returned items, a
malformed duration on the first item makes the whole merge loop raise: the
second item is never classified or merged and no mapping is produced, even
though merging the second item alone succeeds. -/
theorem claim_C3_counterexample :
    merge_items dataC3 [itemC3bad, itemC3good] =
      Except.error "ISO8601Error: Unable to parse duration string banana" ∧
    (merge_items dataC3 [itemC3good]).isOk = true :=
  ⟨rfl, rfl⟩

/-- C3 (amended): a duration string that fails to parse for one matching
item raises an error that is propagated, not silently defaulted; the
propagation aborts the processing of all remaining items and of the merge
loop itself, so the aggregation run does not produce a mapping. -/
theorem claim_C3 (data : Records) (item : Item) (rest : List Item)
    (rec : StreamRecord) (d e : String)
    (hl : data.lookup (some item.id) = some rec)
    (hc : ∃ st, check_stream_state_type item = Except.ok st)
    (hd : item.duration = some d)
    (hp : parse_duration d = Except.error e) :
    merge_items data (item :: rest) = Except.error e := by
  obtain ⟨st, hst⟩ := hc
  simp [merge_items, merge_item, hl, hst, merge_duration, hd, hp, Except.map,
    except_bind_ok, except_bind_error]

theorem claim_C3_witness :
    merge_items dataC3 [itemC3bad, itemC3good] =
      Except.error "ISO8601Error: Unable to parse duration string banana" :=
  claim_C3 dataC3 itemC3bad [itemC3good] recC3a "banana"
    "ISO8601Error: Unable to parse duration string banana"
    rfl ⟨("on ended", "video"), rfl⟩ rfl rfl

theorem merge_item_eq (data : Records) (item : Item) (rec : StreamRecord)
    (st ty : String) (dur : Option String)
    (hl : data.lookup (some item.id) = some rec)
    (hc : check_stream_state_type item = Except.ok (st, ty))
    (hd : merge_duration item = Except.ok dur) :
    merge_item data item =
      Except.ok (upsert (some item.id) (merged_record rec item st ty dur) data) := by
  simp [merge_item, hl, hc, hd, except_bind_ok]

/-- C8: the merge replaces the scheduled start only when the provider
supplies a non-null value; a null provider value leaves the scraped value
unchanged, and a scheduled start present before the merge is still present
after it. -/
theorem claim_C8 (data : Records) (item : Item) (rec : StreamRecord)
    (st ty : String) (dur : Option String)
    (hl : data.lookup (some item.id) = some rec)
    (hc : check_stream_state_type item = Except.ok (st, ty))
    (hd : merge_duration item = Except.ok dur) :
    merge_item data item =
      Except.ok (upsert (some item.id) (merged_record rec item st ty dur) data) ∧
    (item.scheduledStartTime = none →
      (merged_record rec item st ty dur).datetime.scheduled_start =
        rec.datetime.scheduled_start) ∧
    (∀ s, item.scheduledStartTime = some s →
      (merged_record rec item st ty dur).datetime.scheduled_start = some s) ∧
    (∀ s0, rec.datetime.scheduled_start = some s0 →
      ∃ s1, (merged_record rec item st ty dur).datetime.scheduled_start = some s1) := by
  refine ⟨merge_item_eq data item rec st ty dur hl hc hd, ?_, ?_, ?_⟩
  · intro h
    simp [merged_record, h]
  · intro s h
    simp [merged_record, h]
  · intro s0 h
    cases hs : item.scheduledStartTime with
    | none => exact ⟨s0, by simp [merged_record, hs, h]⟩
    | some s1 => exact ⟨s1, by simp [merged_record, hs]⟩

theorem claim_C8_witness :
    merge_item [(some "MMMMMMMMMMM", recC8)] itemC8 =
      Except.ok [(some "MMMMMMMMMMM",
        merged_record recC8 itemC8 "on scheduled" "live" none)] ∧
    (merged_record recC8 itemC8 "on scheduled" "live" none).datetime.scheduled_start =
      some "2024-06-01T09:00:00+00:00" := by
  have h := claim_C8 [(some "MMMMMMMMMMM", recC8)] itemC8 recC8 "on scheduled" "live" none
    rfl rfl rfl
  exact ⟨h.1, h.2.1 rfl⟩

theorem py_replace_nl_append (l1 l2 : List Char) :
    py_replace_nl (l1 ++ '\n' :: l2) =
      py_replace_nl l1 ++ '<' :: 'b' :: 'r' :: '>' :: py_replace_nl l2 := by
  induction l1 with
  | nil => simp [py_replace_nl]
  | cons c rest ih =>
    by_cases h : c = '\n' <;> simp [py_replace_nl, h, ih]

theorem py_replace_nl_of_not_mem (l : List Char) (h : '\n' ∉ l) : py_replace_nl l = l := by
  induction l with
  | nil => rfl
  | cons c rest ih =>
    have hc : c ≠ '\n' := fun hc => h (hc ▸ List.mem_cons_self c rest)
    have hr : '\n' ∉ rest := fun hr => h (List.mem_cons_of_mem c hr)
    simp [py_replace_nl, hc, ih hr]

theorem newline_not_mem_py_replace_nl (l : List Char) : '\n' ∉ py_replace_nl l := by
  induction l with
  | nil => simp [py_replace_nl]
  | cons c rest ih =>
    by_cases h : c = '\n'
    · subst h
      intro hmem
      have hm : '\n' ∈ py_replace_nl rest := by
        simpa [py_replace_nl] using hmem
      exact ih hm
    · intro hmem
      have hcn : ('\n' = c) ↔ False := ⟨fun hh => h hh.symm, False.elim⟩
      have hm : '\n' ∈ py_replace_nl rest := by
        simpa [py_replace_nl, h, hcn] using hmem
      exact ih hm

/-- C10: the merged record stores the sanitized provider description; the
sanitizer maps a null or empty description to none and otherwise replaces
every newline (and nothing else) with the br tag, never raising: replacing
distributes over a newline occurrence, leaves newline-free text unchanged,
and leaves no newline in its output. -/
theorem claim_C10 :
    (∀ (rec : StreamRecord) (item : Item) (st ty : String) (dur : Option String),
      (merged_record rec item st ty dur).stream.description =
        sanitize_text item.description) ∧
    sanitize_text none = none ∧
    sanitize_text (some "") = none ∧
    (∀ s : String, s ≠ "" →
      sanitize_text (some s) = some (String.mk (py_replace_nl s.data))) ∧
    (∀ l1 l2 : List Char,
      py_replace_nl (l1 ++ '\n' :: l2) =
        py_replace_nl l1 ++ '<' :: 'b' :: 'r' :: '>' :: py_replace_nl l2) ∧
    (∀ l : List Char, '\n' ∉ l → py_replace_nl l = l) ∧
    (∀ l : List Char, '\n' ∉ py_replace_nl l) := by
  refine ⟨fun rec item st ty dur => rfl, rfl, rfl, fun s h => ?_,
    py_replace_nl_append, py_replace_nl_of_not_mem, newline_not_mem_py_replace_nl⟩
  simp [sanitize_text, h]

theorem claim_C10_witness :
    sanitize_text (some "a\nb") = some (String.mk (py_replace_nl "a\nb".data)) :=
  claim_C10.2.2.2.1 "a\nb" (by decide)

theorem chunkF_length_le (fuel : Nat) (l : List String) :
    ∀ c ∈ chunkF fuel l, c.length ≤ 50 := by
  induction fuel generalizing l with
  | zero =>
    cases l with
    | nil => simp [chunkF]
    | cons x rest => simp [chunkF]
  | succ f ih =>
    cases l with
    | nil => simp [chunkF]
    | cons x rest =>
      intro c hc
      rcases List.mem_cons.mp hc with h | h
      · subst h
        exact List.length_take_le 50 (x :: rest)
      · exact ih _ c h

theorem chunkF_join (fuel : Nat) (l : List String) (h : l.length ≤ fuel) :
    (chunkF fuel l).flatten = l := by
  induction fuel generalizing l with
  | zero =>
    cases l with
    | nil => rfl
    | cons x rest => simp at h
  | succ f ih =>
    cases l with
    | nil => rfl
    | cons x rest =>
      have hlen : ((x :: rest).drop 50).length ≤ f := by
        simp only [List.length_drop, List.length_cons] at *
        omega
      simp only [chunkF, List.flatten]
      rw [ih _ hlen]
      exact List.take_append_drop 50 (x :: rest)

theorem fetch_foldl (provider : List String → Except String (List Item))
    (chunks : List (List String)) (acc : List Item) :
    chunks.foldl
      (fun items chunk =>
        match provider chunk with
        | Except.ok resp => items ++ resp
        | Except.error _ => items) acc =
    acc ++ (chunks.map fun c =>
      match provider c with
      | Except.ok resp => resp
      | Except.error _ => []).flatten := by
  induction chunks generalizing acc with
  | nil => simp
  | cons c cs ih =>
    cases hp : provider c with
    | ok resp => simp [List.foldl, hp, ih, List.append_assoc]
    | error e => simp [List.foldl, hp, ih]

theorem lookup_upsert_ne (k k0 : Option String) (v : StreamRecord) (data : Records)
    (h : k ≠ k0) : (upsert k0 v data).lookup k = data.lookup k := by
  induction data with
  | nil => simp [upsert, List.lookup, beq_eq_false_iff_ne.mpr h]
  | cons p rest ih =>
    obtain ⟨k1, v1⟩ := p
    by_cases hk : k1 = k0
    · subst hk
      simp [upsert, List.lookup, beq_eq_false_iff_ne.mpr h]
    · simp only [upsert, if_neg hk, List.lookup]
      by_cases hkk : k == k1
      · simp [hkk]
      · simp [hkk, ih]

theorem merge_item_lookup_other (data : Records) (it : Item) (key : Option String)
    (h : some it.id ≠ key) (d1 : Records) (hm : merge_item data it = Except.ok d1) :
    d1.lookup key = data.lookup key := by
  unfold merge_item at hm
  cases hl : data.lookup (some it.id) with
  | none =>
    rw [hl] at hm
    cases hm
    rfl
  | some rec =>
    rw [hl] at hm
    cases hc : check_stream_state_type it with
    | error e =>
      rw [hc] at hm
      simp [except_bind_eq, Except.bind] at hm
    | ok st =>
      rw [hc] at hm
      cases hd : merge_duration it with
      | error e =>
        rw [hd] at hm
        simp [except_bind_eq, Except.bind] at hm
      | ok dur =>
        rw [hd] at hm
        simp only [except_bind_ok, Except.ok.injEq] at hm
        rw [← hm]
        exact lookup_upsert_ne key (some it.id) _ data (Ne.symm h)

theorem merge_items_lookup_other (items : List Item) :
    ∀ (data data' : Records) (key : Option String) (rec : StreamRecord),
    merge_items data items = Except.ok data' → data.lookup key = some rec →
    (∀ it ∈ items, some it.id ≠ key) → data'.lookup key = some rec := by
  induction items with
  | nil =>
    intro data data' key rec hm hl _
    cases hm
    exact hl
  | cons it rest ih =>
    intro data data' key rec hm hl hall
    unfold merge_items at hm
    cases h1 : merge_item data it with
    | error e =>
      rw [h1] at hm
      simp [except_bind_eq, Except.bind] at hm
    | ok d1 =>
      rw [h1] at hm
      simp only [except_bind_ok] at hm
      have hk : d1.lookup key = some rec := by
        rw [merge_item_lookup_other data it key (hall it (List.mem_cons_self it rest)) d1 h1]
        exact hl
      exact ih d1 data' key rec hm hk fun x hx => hall x (List.mem_cons_of_mem it hx)

/-- C9: the enrichment pass slices the eligible identifiers into batches of
at most fifty whose concatenation is the original order; the collected
items are exactly those of the successful batch calls, a raising batch
being skipped without failing the pass; a record matched by no returned
item is left exactly as scraped; a record matched by a returned item is
enriched in place with status and type set; and in the concrete
three-batch scenario of one hundred twenty identifiers with the second
batch raising, the collected items are exactly those of batches one and
three. -/
theorem claim_C9 :
    (∀ ids : List String,
      (∀ c ∈ chunk50 ids, c.length ≤ 50) ∧ (chunk50 ids).flatten = ids) ∧
    (∀ (provider : List String → Except String (List Item)) (ids : List String),
      fetch_youtube_data provider ids =
        ((chunk50 ids).map fun c =>
          match provider c with
          | Except.ok resp => resp
          | Except.error _ => []).flatten) ∧
    (∀ (data : Records) (items : List Item) (key : Option String) (rec : StreamRecord)
        (data' : Records),
      merge_items data items = Except.ok data' →
      data.lookup key = some rec →
      (∀ it ∈ items, some it.id ≠ key) →
      data'.lookup key = some rec) ∧
    (∀ (data : Records) (item : Item) (rec : StreamRecord) (st ty : String)
        (dur : Option String),
      data.lookup (some item.id) = some rec →
      check_stream_state_type item = Except.ok (st, ty) →
      merge_duration item = Except.ok dur →
      merge_item data item =
        Except.ok (upsert (some item.id) (merged_record rec item st ty dur) data) ∧
      (merged_record rec item st ty dur).stream.status = some st ∧
      (merged_record rec item st ty dur).stream.type = some ty) ∧
    (chunk50 idsC9).length = 3 ∧
    fetch_youtube_data providerC9 idsC9 = (idsC9.take 50 ++ idsC9.drop 100).map mkItemC9 := by
  refine ⟨fun ids => ⟨chunkF_length_le _ _, chunkF_join _ _ (Nat.le_refl _)⟩,
    ?_,
    fun data items key rec data' hm hl hall =>
      merge_items_lookup_other items data data' key rec hm hl hall,
    fun data item rec st ty dur hl hc hd =>
      ⟨merge_item_eq data item rec st ty dur hl hc hd, rfl, rfl⟩,
    by decide, by decide⟩
  intro provider ids
  unfold fetch_youtube_data
  rw [fetch_foldl]
  simp

theorem claim_C9_witness :
    ([(some "KKKKKKKKKKK", recW)] : Records).lookup (some "KKKKKKKKKKK") = some recW :=
  claim_C9.2.2.1 [(some "KKKKKKKKKKK", recW)] [] (some "KKKKKKKKKKK") recW
    [(some "KKKKKKKKKKK", recW)] rfl rfl (by simp)

theorem orR_none (b : MatchRes) : orR none b = b := rfl

theorem orR_some (r : Option (List Char)) (b : MatchRes) : orR (some r) b = some r := rfl

theorem starSearch_none (k : List Char → MatchRes) (s : List Char) (m : Nat)
    (h : ∀ i, i ≤ m → k (s.drop i) = none) : starSearch k s m = none := by
  induction m with
  | zero =>
    have h0 := h 0 (Nat.zero_le 0)
    simpa [starSearch] using h0
  | succ j ih =>
    have hj1 := h (j + 1) (Nat.le_refl _)
    simp only [starSearch, hj1, orR_none]
    exact ih fun i hi => h i (Nat.le_succ_of_le hi)

theorem starSearch_found (k : List Char → MatchRes) (s : List Char) (m j : Nat)
    (r : Option (List Char)) (hj : k (s.drop j) = some r) (hjm : j ≤ m)
    (hfail : ∀ i, j < i → i ≤ m → k (s.drop i) = none) :
    starSearch k s m = some r := by
  induction m with
  | zero =>
    have hj0 : j = 0 := Nat.le_zero.mp hjm
    subst hj0
    simpa [starSearch] using hj
  | succ t ih =>
    by_cases hje : j = t + 1
    · subst hje
      simp only [starSearch, hj, orR_some]
    · have h1 : k (s.drop (t + 1)) = none := hfail (t + 1) (by omega) (Nat.le_refl _)
      simp only [starSearch, h1, orR_none]
      exact ih (by omega) fun i hi1 hi2 => hfail i hi1 (by omega)

theorem repMatch_exact (p : Char → Bool) (l1 : List Char) :
    ∀ (l2 : List Char) (cap : Option (List Char))
      (k : List Char → Option (List Char) → MatchRes),
    (∀ c ∈ l1, p c = true) →
    repMatch p l1.length (l1 ++ l2) cap k = k l2 cap := by
  induction l1 with
  | nil => intro l2 cap k _; rfl
  | cons c rest ih =>
    intro l2 cap k hall
    have hc : p c = true := hall c (List.mem_cons_self c rest)
    simp only [List.length_cons, List.cons_append, repMatch, matChar, hc, if_true]
    exact ih l2 cap k fun x hx => hall x (List.mem_cons_of_mem c hx)

theorem repMatch_short (p : Char → Bool) (n : Nat) :
    ∀ (s : List Char) (cap : Option (List Char))
      (k : List Char → Option (List Char) → MatchRes),
    s.length < n → repMatch p n s cap k = none := by
  induction n with
  | zero => intro s cap k h; exact absurd h (by omega)
  | succ m ih =>
    intro s cap k h
    cases s with
    | nil => rfl
    | cons c rest =>
      simp only [repMatch, matChar]
      by_cases hc : p c = true
      · rw [if_pos hc]
        exact ih rest cap k (by simp only [List.length_cons] at h; omega)
      · rw [if_neg hc]

theorem repMatch_sound (p : Char → Bool) (n : Nat) :
    ∀ (s : List Char) (cap : Option (List Char))
      (k : List Char → Option (List Char) → MatchRes) (r : Option (List Char)),
    repMatch p n s cap k = some r →
    ∃ l1 l2, s = l1 ++ l2 ∧ l1.length = n ∧ (∀ c ∈ l1, p c = true) ∧ k l2 cap = some r := by
  induction n with
  | zero =>
    intro s cap k r h
    exact ⟨[], s, rfl, rfl, by simp, h⟩
  | succ m ih =>
    intro s cap k r h
    cases s with
    | nil => exact absurd h (by simp [repMatch, matChar])
    | cons c rest =>
      simp only [repMatch, matChar] at h
      by_cases hc : p c = true
      · rw [if_pos hc] at h
        obtain ⟨l1, l2, heq, hlen, hall, hk⟩ := ih rest cap k r h
        refine ⟨c :: l1, l2, by rw [heq, List.cons_append], by simp [hlen], ?_, hk⟩
        intro x hx
        rcases List.mem_cons.mp hx with h1 | h1
        · subst h1; exact hc
        · exact hall x h1
      · rw [if_neg hc] at h
        cases h

theorem grp_part (l : List Char) (cap : Option (List Char)) (h11 : l.length = 11)
    (hch : ∀ c ∈ l, notAmp c = true) :
    reMatch (RE.grp (RE.repCls notAmp 11)) l cap kTop = some (some l) := by
  have he : reMatch (RE.grp (RE.repCls notAmp 11)) l cap kTop
      = repMatch notAmp 11 (l ++ [])
          cap (fun s1 _ => kTop s1 (some (l.take (l.length - s1.length)))) := by
    rw [List.append_nil]
    rfl
  rw [he, ← h11,
    repMatch_exact notAmp l [] cap (fun s1 _ => kTop s1 (some (l.take (l.length - s1.length)))) hch]
  simp [kTop]

theorem grp_short (s : List Char) (cap : Option (List Char))
    (k : List Char → Option (List Char) → MatchRes) (h : s.length < 11) :
    reMatch (RE.grp (RE.repCls notAmp 11)) s cap k = none :=
  repMatch_short notAmp 11 s cap _ h

theorem idChar_facts (c : Char) (h : idChar c = true) :
    notSlash c = true ∧ notAmp c = true ∧ dotP c = true ∧ qAmp c = false := by
  have h1 : c ≠ '/' := fun hc => absurd h (by subst hc; decide)
  have h2 : c ≠ '&' := fun hc => absurd h (by subst hc; decide)
  have h3 : c ≠ '\n' := fun hc => absurd h (by subst hc; decide)
  have h4 : c ≠ '?' := fun hc => absurd h (by subst hc; decide)
  refine ⟨?_, ?_, ?_, ?_⟩
  · simpa [notSlash, bne_iff_ne] using h1
  · simpa [notAmp, bne_iff_ne] using h2
  · simpa [dotP, bne_iff_ne] using h3
  · simp [qAmp, beq_eq_false_iff_ne.mpr h4, beq_eq_false_iff_ne.mpr h2]

theorem altA_fail (l : List Char) (cap : Option (List Char))
    (k : List Char → Option (List Char) → MatchRes)
    (h : ∀ c ∈ l, notSlash c = true) :
    reMatch altA l cap k = none := by
  cases l with
  | nil => rfl
  | cons c rest =>
    have hc : notSlash c = true := h c (List.mem_cons_self c rest)
    simp only [altA, reMatch, matChar, hc, if_true]
    apply starSearch_none
    intro i hi
    cases hd : rest.drop i with
    | nil => simp [reMatch, matChar]
    | cons c2 r2 =>
      have hmem : c2 ∈ rest := List.drop_subset i rest (hd ▸ List.mem_cons_self c2 r2)
      have hc2 : notSlash c2 = true := h c2 (List.mem_cons_of_mem c hmem)
      have hne : (c2 == '/') = false := by
        simp only [notSlash, bne_iff_ne] at hc2
        exact beq_eq_false_iff_ne.mpr hc2
      simp [reMatch, matChar, hne]

theorem match_ytbe (l : List Char) (h11 : l.length = 11)
    (hch : ∀ c ∈ l, idChar c = true) :
    reMatch idPattern ("https://youtu.be/".data ++ l) none kTop = some (some l) := by
  have hAmp : ∀ c ∈ l, notAmp c = true := fun c hc => (idChar_facts c (hch c hc)).2.1
  have e : reMatch idPattern ("https://youtu.be/".data ++ l) none kTop
      = orR (orR (reMatch (RE.grp (RE.repCls notAmp 11)) l none kTop) none) none := rfl
  rw [e, grp_part l none h11 hAmp]
  rfl

theorem all_append {p : Char → Bool} {l1 l2 : List Char} (h1 : l1.all p = true)
    (h2 : ∀ x ∈ l2, p x = true) : ∀ x ∈ l1 ++ l2, p x = true := by
  intro x hx
  rcases List.mem_append.mp hx with h | h
  · exact List.all_eq_true.mp h1 x h
  · exact h2 x h

theorem match_watch (l : List Char) (h11 : l.length = 11)
    (hch : ∀ c ∈ l, idChar c = true) :
    reMatch idPattern ("https://www.youtube.com/watch?v=".data ++ l) none kTop
      = some (some l) := by
  have hAmp : ∀ c ∈ l, notAmp c = true := fun c hc => (idChar_facts c (hch c hc)).2.1
  have hSlash : ∀ c ∈ "watch?v=".data ++ l, notSlash c = true :=
    all_append (by decide) fun c hc => (idChar_facts c (hch c hc)).1
  have e : reMatch idPattern ("https://www.youtube.com/watch?v=".data ++ l) none kTop
      = orR (orR (orR (orR (orR
          (reMatch altA ("watch?v=".data ++ l) none kSeq3)
          (reMatch (RE.alt altB altC) ("watch?v=".data ++ l) none kSeq3))
          none) none) none) none := rfl
  rw [e, altA_fail ("watch?v=".data ++ l) none kSeq3 hSlash, orR_none]
  have e2 : reMatch (RE.alt altB altC) ("watch?v=".data ++ l) none kSeq3
      = orR (reMatch (RE.grp (RE.repCls notAmp 11)) l none kTop)
            (reMatch altC ("watch?v=".data ++ l) none kSeq3) := rfl
  rw [e2, grp_part l none h11 hAmp]
  rfl

theorem match_embed (l : List Char) (h11 : l.length = 11)
    (hch : ∀ c ∈ l, idChar c = true) :
    reMatch idPattern ("https://www.youtube.com/embed/".data ++ l) none kTop
      = some (some l) := by
  have hAmp : ∀ c ∈ l, notAmp c = true := fun c hc => (idChar_facts c (hch c hc)).2.1
  have hDot : ∀ c ∈ l, dotP c = true := fun c hc => (idChar_facts c (hch c hc)).2.2.1
  have htw : l.takeWhile dotP = l := List.takeWhile_eq_self_iff.mpr hDot
  have e : reMatch idPattern ("https://www.youtube.com/embed/".data ++ l) none kTop
      = orR (orR (orR (orR (orR (orR
          (starSearch (fun s1 => kSeq3 s1 none) l ((l.takeWhile dotP).length))
          (starSearch
            (fun s1 => reMatch (RE.seq (RE.lit '/') (RE.starCls dotP)) s1 none kSeq3)
            ("mbed/".data ++ l) 3))
          (reMatch (RE.alt altB altC) ("embed/".data ++ l) none kSeq3))
          none) none) none) none := rfl
  rw [e, htw, h11]
  have hss : starSearch (fun s1 => kSeq3 s1 none) l 11 = some (some l) := by
    apply starSearch_found _ _ 11 0 (some l) ?_ (by omega) ?_
    · show kSeq3 (l.drop 0) none = some (some l)
      rw [List.drop_zero]
      show reMatch (RE.grp (RE.repCls notAmp 11)) l none kTop = some (some l)
      exact grp_part l none h11 hAmp
    · intro i h1 h2
      show kSeq3 (l.drop i) none = none
      show reMatch (RE.grp (RE.repCls notAmp 11)) (l.drop i) none kTop = none
      exact grp_short _ none kTop (by rw [List.length_drop]; omega)
  rw [hss]
  rfl

theorem match_query (l : List Char) (h11 : l.length = 11)
    (hch : ∀ c ∈ l, idChar c = true) :
    reMatch idPattern ("https://www.youtube.com/watch?app=desktop&v=".data ++ l) none kTop
      = some (some l) := by
  have hAmp : ∀ c ∈ l, notAmp c = true := fun c hc => (idChar_facts c (hch c hc)).2.1
  have hDot : ∀ c ∈ l, dotP c = true := fun c hc => (idChar_facts c (hch c hc)).2.2.1
  have hSlash : ∀ c ∈ "watch?app=desktop&v=".data ++ l, notSlash c = true :=
    all_append (by decide) fun c hc => (idChar_facts c (hch c hc)).1
  have e : reMatch idPattern ("https://www.youtube.com/watch?app=desktop&v=".data ++ l)
        none kTop
      = orR (orR (orR (orR (orR
          (reMatch altA ("watch?app=desktop&v=".data ++ l) none kSeq3)
          (reMatch (RE.alt altB altC) ("watch?app=desktop&v=".data ++ l) none kSeq3))
          none) none) none) none := rfl
  rw [e, altA_fail ("watch?app=desktop&v=".data ++ l) none kSeq3 hSlash, orR_none]
  have e2 : reMatch (RE.alt altB altC) ("watch?app=desktop&v=".data ++ l) none kSeq3
      = reMatch altC ("watch?app=desktop&v=".data ++ l) none kSeq3 := rfl
  rw [e2]
  have e3 : reMatch altC ("watch?app=desktop&v=".data ++ l) none kSeq3
      = starSearch (fun s1 => reMatch altCtail s1 none kSeq3)
          ("watch?app=desktop&v=".data ++ l)
          ((("watch?app=desktop&v=".data ++ l).takeWhile dotP).length) := rfl
  rw [e3]
  have htw : ("watch?app=desktop&v=".data ++ l).takeWhile dotP
      = "watch?app=desktop&v=".data ++ l :=
    List.takeWhile_eq_self_iff.mpr (all_append (by decide) hDot)
  rw [htw, List.length_append, h11]
  have hgen : ∀ j, reMatch altCtail (l.drop j) none kSeq3 = none := by
    intro j
    cases hd : l.drop j with
    | nil => rfl
    | cons c2 r2 =>
      have hmem : c2 ∈ l := List.drop_subset j l (hd ▸ List.mem_cons_self c2 r2)
      have hq : qAmp c2 = false := (idChar_facts c2 (hch c2 hmem)).2.2.2
      simp [altCtail, reMatch, matChar, hq]
  have hstep : ∀ i, 17 < i → i ≤ "watch?app=desktop&v=".data.length + 11 →
      (fun s1 => reMatch altCtail s1 none kSeq3)
        (("watch?app=desktop&v=".data ++ l).drop i) = none := by
    intro i h1 h2
    have h2' : i ≤ 31 := h2
    interval_cases i
    · rfl
    · rfl
    all_goals exact hgen _
  have hj : (fun s1 => reMatch altCtail s1 none kSeq3)
      (("watch?app=desktop&v=".data ++ l).drop 17) = some (some l) := by
    show reMatch altCtail ('&' :: 'v' :: '=' :: l) none kSeq3 = some (some l)
    have e4 : reMatch altCtail ('&' :: 'v' :: '=' :: l) none kSeq3
        = reMatch (RE.grp (RE.repCls notAmp 11)) l none kTop := rfl
    rw [e4]
    exact grp_part l none h11 hAmp
  rw [starSearch_found _ _ ("watch?app=desktop&v=".data.length + 11) 17 (some l) hj
    (by decide) hstep]
  rfl

theorem goodRes_none : GoodRes none := fun _ hv => by cases hv

theorem goodRes_orR {a b : MatchRes} (ha : GoodRes a) (hb : GoodRes b) :
    GoodRes (orR a b) := by
  cases a with
  | some r => exact ha
  | none => exact hb

theorem goodRes_kTop : ∀ (u : List Char) (c : Option (List Char)),
    GoodCap c → GoodRes (kTop u c) := by
  intro u c hc v hv
  have hcv : c = v := by simpa [kTop] using hv
  subst hcv
  exact hc

theorem goodRes_starSearch (k : List Char → MatchRes) (s : List Char) (m : Nat)
    (hk : ∀ u, GoodRes (k u)) : GoodRes (starSearch k s m) := by
  induction m with
  | zero => exact hk s
  | succ t ih => exact goodRes_orR (hk _) ih

theorem goodRes_repMatch (p : Char → Bool) (n : Nat) :
    ∀ (s : List Char) (cap : Option (List Char))
      (k : List Char → Option (List Char) → MatchRes),
    GoodCap cap → (∀ u c, GoodCap c → GoodRes (k u c)) →
    GoodRes (repMatch p n s cap k) := by
  induction n with
  | zero => intro s cap k hc hk; exact hk s cap hc
  | succ m ih =>
    intro s cap k hc hk
    cases s with
    | nil => exact goodRes_none
    | cons c rest =>
      simp only [repMatch, matChar]
      split
      · exact ih rest cap k hc hk
      · exact goodRes_none

theorem reMatch_capsafe {r : RE} (hr : CapSafe r) :
    ∀ (s : List Char) (cap : Option (List Char))
      (k : List Char → Option (List Char) → MatchRes),
    GoodCap cap → (∀ u c, GoodCap c → GoodRes (k u c)) →
    GoodRes (reMatch r s cap k) := by
  induction hr with
  | eps => intro s cap k hc hk; exact hk s cap hc
  | lit c =>
    intro s cap k hc hk
    cases s with
    | nil => exact goodRes_none
    | cons x rest =>
      simp only [reMatch, matChar]
      split
      · exact hk rest cap hc
      · exact goodRes_none
  | cls p =>
    intro s cap k hc hk
    cases s with
    | nil => exact goodRes_none
    | cons x rest =>
      simp only [reMatch, matChar]
      split
      · exact hk rest cap hc
      · exact goodRes_none
  | seq ha hb iha ihb =>
    intro s cap k hc hk
    exact iha s cap _ hc fun u c hcc => ihb u c k hcc hk
  | alt ha hb iha ihb =>
    intro s cap k hc hk
    exact goodRes_orR (iha s cap k hc hk) (ihb s cap k hc hk)
  | opt ha iha =>
    intro s cap k hc hk
    exact goodRes_orR (iha s cap k hc hk) (hk s cap hc)
  | starCls p =>
    intro s cap k hc hk
    exact goodRes_starSearch _ _ _ fun u => hk u cap hc
  | repCls p n =>
    intro s cap k hc hk
    exact goodRes_repMatch p n s cap k hc hk
  | grp p hp =>
    intro s cap k hc hk
    intro v hv
    have hv2 : repMatch p 11 s cap
        (fun s1 _ => k s1 (some (s.take (s.length - s1.length)))) = some v := hv
    obtain ⟨l1, l2, heq, hlen, hall, hkk⟩ := repMatch_sound p 11 s cap _ v hv2
    have htake : s.take (s.length - l2.length) = l1 := by
      have hsub : s.length - l2.length = l1.length := by
        rw [heq, List.length_append]
        omega
      rw [hsub, heq, List.take_left]
    have hgood : GoodCap (some l1) := by
      intro lx hlx
      cases hlx
      exact ⟨hlen, fun c hcm => hp c (hall c hcm)⟩
    refine hk l2 (some l1) hgood v ?_
    rw [← htake]
    exact hkk

theorem capSafe_str (l : List Char) :
    CapSafe (l.foldr (fun c r => RE.seq (RE.lit c) r) RE.eps) := by
  induction l with
  | nil => exact CapSafe.eps
  | cons c rest ih => exact CapSafe.seq (CapSafe.lit c) ih

theorem capSafe_idPattern : CapSafe idPattern := by
  unfold idPattern schemeRE hostRE altA altB altC strRE
  refine CapSafe.seq
    (CapSafe.opt (CapSafe.seq (capSafe_str _)
      (CapSafe.seq (CapSafe.opt (CapSafe.lit 's')) (capSafe_str _))))
    (CapSafe.seq (CapSafe.opt (capSafe_str _))
      (CapSafe.seq
        (CapSafe.alt
          (CapSafe.seq (capSafe_str _)
            (CapSafe.alt
              (CapSafe.seq (CapSafe.cls notSlash)
                (CapSafe.seq (CapSafe.starCls notSlash)
                  (CapSafe.seq (CapSafe.lit '/') (CapSafe.starCls dotP))))
              (CapSafe.alt
                (CapSafe.alt (CapSafe.lit 'v')
                  (CapSafe.alt
                    (CapSafe.seq (CapSafe.lit 'e') (CapSafe.opt (capSafe_str _)))
                    (capSafe_str _)))
                (CapSafe.seq (CapSafe.starCls dotP)
                  (CapSafe.seq (CapSafe.cls qAmp)
                    (CapSafe.seq (CapSafe.lit 'v') (CapSafe.lit '=')))))))
          (capSafe_str _))
        (CapSafe.grp notAmp fun c hc => by
          simpa [notAmp, bne_iff_ne] using hc)))

theorem reSearch_capsafe (r : RE) (hr : CapSafe r) (s : List Char) :
    GoodRes (reSearch r s) := by
  induction s with
  | nil =>
    exact reMatch_capsafe hr [] none kTop (fun lx hlx => by cases hlx) goodRes_kTop
  | cons c rest ih =>
    intro v hv
    simp only [reSearch] at hv
    cases hm : reMatch r (c :: rest) none kTop with
    | some cap =>
      rw [hm] at hv
      have hcv : cap = v := by simpa using hv
      subst hcv
      exact reMatch_capsafe hr (c :: rest) none kTop (fun lx hlx => by cases hlx)
        goodRes_kTop cap hm
    | none =>
      rw [hm] at hv
      exact ih v hv

theorem reSearch_pos0 (r : RE) (s : List Char) (res : Option (List Char))
    (h : reMatch r s none kTop = some res) : reSearch r s = some res := by
  cases s with
  | nil => exact h
  | cons c rest =>
    simp only [reSearch]
    rw [h]

theorem extract_of_search (url : String) (ha : containsSub "abema" url = false)
    (cap : List Char) (h : reSearch idPattern url.data = some (some cap)) :
    extract_id url = some (String.mk cap) := by
  simp [extract_id, ha, h]

theorem extract_good (url v : String) (ha : containsSub "abema" url = false)
    (he : extract_id url = some v) : v.length = 11 ∧ ∀ c ∈ v.data, c ≠ '&' := by
  rw [extract_id, if_neg (by simp [ha])] at he
  cases hs : reSearch idPattern url.data with
  | none => rw [hs] at he; cases he
  | some cap =>
    cases cap with
    | none => rw [hs] at he; cases he
    | some capl =>
      rw [hs] at he
      have hev : String.mk capl = v := by simpa using he
      have hg := reSearch_capsafe idPattern capSafe_idPattern url.data (some capl) hs capl rfl
      subst hev
      exact hg

theorem extract_shape (pre id : String) (ha : containsSub "abema" (pre ++ id) = false)
    (hm : reMatch idPattern (pre.data ++ id.data) none kTop = some (some id.data)) :
    extract_id (pre ++ id) = some id := by
  have hs : reSearch idPattern (pre ++ id).data = some (some id.data) := by
    rw [String.data_append]
    exact reSearch_pos0 _ _ _ hm
  exact extract_of_search (pre ++ id) ha id.data hs

/-- C6 counterexample: the capture class of the pattern is any character but
the ampersand, not the identifier charset, so the extractor returns an
eleven-character capture containing characters outside the charset; and the
secondary-family test is a substring test anywhere in the link, so a
primary-family watch URL whose charset identifier contains the marker is
diverted to the final-path-segment branch and the embedded identifier is
not returned. -/
theorem claim_C6_counterexample :
    extract_id "youtube.com/watch?v=abc?def!ghi" = some "abc?def!ghi" ∧
    ("abc?def!ghi".data.all idChar) = false ∧
    extract_id "https://www.youtube.com/watch?v=abemaabemaa" = some "watch?v=abemaabemaa" ∧
    "abemaabemaa".length = 11 ∧ ("abemaabemaa".data.all idChar) = true := by decide

/-- C6 (amended): for a link without the secondary-family marker substring,
any returned identifier is an eleven-character capture of non-ampersand
characters (not validated against the identifier charset); for the four
primary URL shapes embedding an identifier of eleven charset characters,
provided the full link does not contain the marker substring, the extractor
returns that identifier; a link matching none of the shapes yields none. -/
theorem claim_C6 (id : String) (h11 : id.length = 11)
    (hch : ∀ c ∈ id.data, idChar c = true)
    (ha1 : containsSub "abema" ("https://www.youtube.com/watch?v=" ++ id) = false)
    (ha2 : containsSub "abema" ("https://youtu.be/" ++ id) = false)
    (ha3 : containsSub "abema" ("https://www.youtube.com/embed/" ++ id) = false)
    (ha4 : containsSub "abema"
      ("https://www.youtube.com/watch?app=desktop&v=" ++ id) = false) :
    extract_id ("https://www.youtube.com/watch?v=" ++ id) = some id ∧
    extract_id ("https://youtu.be/" ++ id) = some id ∧
    extract_id ("https://www.youtube.com/embed/" ++ id) = some id ∧
    extract_id ("https://www.youtube.com/watch?app=desktop&v=" ++ id) = some id ∧
    (∀ url v : String, containsSub "abema" url = false → extract_id url = some v →
      v.length = 11 ∧ ∀ c ∈ v.data, c ≠ '&') ∧
    (∀ url : String, containsSub "abema" url = false →
      reSearch idPattern url.data = none → extract_id url = none) ∧
    extract_id "https://example.com/page" = none := by
  have h11d : id.data.length = 11 := h11
  refine ⟨extract_shape _ id ha1 (match_watch id.data h11d hch),
    extract_shape _ id ha2 (match_ytbe id.data h11d hch),
    extract_shape _ id ha3 (match_embed id.data h11d hch),
    extract_shape _ id ha4 (match_query id.data h11d hch),
    extract_good, ?_, by decide⟩
  intro url hu hs
  simp [extract_id, hu, hs]

theorem claim_C6_witness :
    extract_id ("https://www.youtube.com/watch?v=" ++ "dQw4w9WgXcQ") = some "dQw4w9WgXcQ" ∧
    extract_id ("https://youtu.be/" ++ "dQw4w9WgXcQ") = some "dQw4w9WgXcQ" ∧
    extract_id ("https://www.youtube.com/embed/" ++ "dQw4w9WgXcQ") = some "dQw4w9WgXcQ" ∧
    extract_id ("https://www.youtube.com/watch?app=desktop&v=" ++ "dQw4w9WgXcQ")
      = some "dQw4w9WgXcQ" ∧
    extract_id "https://example.com/page" = none := by
  have h := claim_C6 "dQw4w9WgXcQ" (by decide) (by decide) (by decide) (by decide)
    (by decide) (by decide)
  exact ⟨h.1, h.2.1, h.2.2.1, h.2.2.2.1, h.2.2.2.2.2.2⟩

end Sched
